import Mathlib

/-!
Verification of the Answer Resolution Engine of this repository
(`frontend/src/components/Answer/AnswerParser.tsx`, together with the
documented `parsePlotFromMessage` helper of `frontend/src/pages/chat/Chat.tsx`).

The JavaScript functions are shallowly embedded as pure Lean functions.
JavaScript `undefined`/`null` field values are modelled with `Option`
(the code only distinguishes them through `?? / != null / ?.` which treat
both alike, except where noted).  The result of `JSON.parse` on a tool
message's string content is part of the input's description: a string on
which `JSON.parse` throws is a `ContentVal.malformed`, a string parsing to
a JSON value is `ContentVal.parsedStr` carrying the fields the code reads.
A JavaScript `TypeError` escaping a function is modelled by
`JsOutcome.thrown`.
-/

namespace AnswerParser

/-- Model of the `answer.answer` field, which the code checks with
`typeof answer.answer !== "string"`: a string, a number, or absent. -/
inductive AnswerField
  | str (s : String)
  | num (n : Int)
  | absent
deriving DecidableEq

/-- Model of the `generated_chart` field: JavaScript distinguishes an absent
field (`undefined`) from an explicit `null` and from a string value. -/
inductive JsStrField
  | undef
  | null
  | str (s : String)
deriving DecidableEq

/-- One entry of a backend citation array (inline pool, flat Prompt Flow
array, or a structured tool message's `citations` array), with every field
any of the three normalizers reads.  An absent JavaScript key is `none`. -/
structure RawCitation where
  id : Option String := none
  content : Option String := none
  title : Option String := none
  filepath : Option String := none
  url : Option String := none
  metadata : Option String := none
  chunk_id : Option String := none
  reindex_id : Option String := none
  part_index : Option Nat := none
  docID : Option String := none
  pageSource : Option String := none
  URL : Option String := none
  docId : Option String := none
  source : Option String := none
  page : Option Nat := none
deriving DecidableEq

/-- One element of the `all_exec_results` array read by
`parsePlotFromMessage`. -/
structure ExecResult where
  code_exec_result : Option String := none
deriving DecidableEq

/-- Fields read from the JSON value of a tool message's content. -/
structure ContentObj where
  citations : Option (List (Option RawCitation)) := none
  all_exec_results : Option (List ExecResult) := none
deriving DecidableEq

/-- A tool message's `content`: a string on which `JSON.parse` throws, a
string parsing to a JSON value, or a non-string object value. -/
inductive ContentVal
  | malformed (s : String)
  | parsedStr (o : ContentObj)
  | objVal (o : ContentObj)
deriving DecidableEq

/-- A `choices[i].messages[j]` entry. -/
structure Message where
  role : Option String := none
  content : Option ContentVal := none
deriving DecidableEq

/-- A `choices[i]` entry. -/
structure Choice where
  messages : Option (List Message) := none
deriving DecidableEq

/-- The payload handed to `parseAnswer`.  `citations` is `none` when the
field is absent or `null` (indexing it then throws), and `some pool` when
it is an array; array holes/`undefined` elements are `none` entries. -/
structure AskResponse where
  answer : AnswerField
  citations : Option (List (Option RawCitation)) := none
  generated_chart : JsStrField := .undef
  choices : Option (List Choice) := none
deriving DecidableEq

/-- The canonical citation record produced by the parser. -/
structure Citation where
  id : String
  content : Option String
  title : Option String
  filepath : Option String
  url : Option String
  metadata : Option String
  chunk_id : Option String
  reindex_id : Option String
  part_index : Option Nat
deriving DecidableEq

/-- The record returned by `parseAnswer` on a string answer. -/
structure ParsedAnswer where
  citations : List Citation
  markdownFormatText : String
  generated_chart : JsStrField
deriving DecidableEq

/-- Result of running a JavaScript function: either a `TypeError` escaped
(`thrown`) or a value was returned. -/
inductive JsOutcome (α : Type)
  | thrown
  | ret (v : α)
deriving DecidableEq

/-- The string `JSON.stringify(\x7b page: n \x7d)` produces. -/
def pageJson (n : Nat) : String :=
  "\x7b\"page\":" ++ toString n ++ "\x7d"

/-- JavaScript array indexing `l[i]` with a possibly negative index:
a negative or out-of-range index reads an absent property (`undefined`). -/
def jsIndex {α : Type} (l : List α) (i : Int) : Option α :=
  if 0 ≤ i then l.get? i.toNat else none

/-- Value of `Number(s)` on an all-digit string `s`. -/
def digitsToNat (s : String) : Nat :=
  s.toList.foldl (fun acc c => acc * 10 + (c.toNat - '0'.toNat)) 0

/-- The expression `link.slice('[doc'.length, link.length - 1)` on an
ASCII link. -/
def idxStrOf (link : String) : String :=
  ((link.toList.drop 4).dropLast).asString

/-- Scanner for `answerText.match(/\[(doc\d\d?\d?)]/g)`: all
non-overlapping matches of `[docN]` (N of 1 to 3 digits) from the left.
The fuel argument (initially the text length) makes recursion structural;
every step consumes at least one character, so fuel never runs out. -/
def scanAux : Nat → List Char → List String
  | _, [] => []
  | 0, _ => []
  | fuel + 1, '[' :: 'd' :: 'o' :: 'c' :: rest =>
    let ds := rest.takeWhile (·.isDigit)
    let rest2 := rest.dropWhile (·.isDigit)
    if 1 ≤ ds.length ∧ ds.length ≤ 3 then
      match rest2 with
      | ']' :: tail =>
        (('[' :: 'd' :: 'o' :: 'c' :: ds) ++ [']']).asString :: scanAux fuel tail
      | _ => scanAux fuel rest
    else scanAux fuel rest
  | fuel + 1, _ :: rest => scanAux fuel rest

/-- The matches of the inline-marker regular expression in the answer. -/
def scanMarkers (s : String) : List String :=
  scanAux s.toList.length s.toList

/-- JavaScript `String.prototype.replaceAll` with a non-empty plain
pattern: leftmost, non-overlapping replacement (fuel-structured). -/
def replaceAllAux (pat rep : List Char) : Nat → List Char → List Char
  | _, [] => []
  | 0, l => l
  | fuel + 1, c :: rest =>
    if pat ≠ [] ∧ pat.isPrefixOf (c :: rest) then
      rep ++ replaceAllAux pat rep fuel (List.drop (pat.length - 1) rest)
    else
      c :: replaceAllAux pat rep fuel rest

/-- The call `text.replaceAll(pat, rep)`. -/
def replaceAll (text pat rep : String) : String :=
  (replaceAllAux pat.toList rep.toList text.toList.length text.toList).asString

/-- The lookup `answer.citations[Number(citationIndex) - 1]` on an array
pool, merging an out-of-range read and an `undefined` element (both make
the subsequent truthiness check fail). -/
def resolveIdx (pool : List (Option RawCitation)) (citationIndex : String) :
    Option RawCitation :=
  (jsIndex pool ((digitsToNat citationIndex : Int) - 1)).join

/-- The mutation `citation.id = citationIndex; citation.reindex_id =
citationReindex.toString()` applied to `cloneDeep` of a pool entry. -/
def cloneWithIndex (r : RawCitation) (citationIndex : String) (k : Nat) : Citation :=
  { id := citationIndex
    content := r.content
    title := r.title
    filepath := r.filepath
    url := r.url
    metadata := r.metadata
    chunk_id := r.chunk_id
    reindex_id := some (toString k)
    part_index := r.part_index }

/-- The `citationLinks?.forEach(link => ...)` loop of `parseAnswer`:
state is the answer text being rewritten, the `filteredCitations`
accumulator and the `citationReindex` counter.  When the pool field is
absent/`null` and a link is processed, indexing it throws. -/
def inlineFold (pool? : Option (List (Option RawCitation))) :
    List String → String → List Citation → Nat →
    JsOutcome (String × List Citation × Nat)
  | [], text, acc, k => .ret (text, acc, k)
  | link :: rest, text, acc, k =>
    match pool? with
    | none => .thrown
    | some pool =>
      let citationIndex := idxStrOf link
      match resolveIdx pool citationIndex,
            acc.find? (fun c => c.id == citationIndex) with
      | some r, none =>
        inlineFold pool? rest
          (replaceAll text link (" ^" ++ toString (k + 1) ++ "^ "))
          (acc ++ [cloneWithIndex r citationIndex (k + 1)]) (k + 1)
      | _, _ => inlineFold pool? rest text acc k

/-- Association-list model of the `Map` used by `enumerateCitations`;
insertion prepends, lookup takes the most recent binding. -/
def mapGet : List (Option String × Nat) → Option String → Option Nat
  | [], _ => none
  | (g, n) :: rest, f => if g = f then some n else mapGet rest f

/-- The loop body of `enumerateCitations`. -/
def enumGo (m : List (Option String × Nat)) : List Citation → List Citation
  | [] => []
  | c :: rest =>
    let part_i := match mapGet m c.filepath with
      | some n => n + 1
      | none => 1
    { c with part_index := some part_i } :: enumGo ((c.filepath, part_i) :: m) rest

/-- The exported `enumerateCitations`: assigns `part_index` as a running
counter keyed by `filepath`. -/
def enumerateCitations (citations : List Citation) : List Citation :=
  enumGo [] citations

/-- The guard `pf && (pf.docID != null || pf.pageSource != null || pf.URL != null)`. -/
def hasPFKeysR (r : RawCitation) : Bool :=
  r.docID.isSome || r.pageSource.isSome || r.URL.isSome

/-- Citation construction of the flat (top-level array) Prompt Flow
extractor, fields `docID`/`pageSource`/`URL`. -/
def normFlat (i : Nat) (r : RawCitation) : Citation :=
  { id := r.docID.getD (toString (i + 1))
    content := some (r.content.getD "")
    title := r.title
    filepath := r.pageSource
    url := r.URL
    metadata := match r.page with
      | some n => some (pageJson n)
      | none => r.metadata
    chunk_id := r.chunk_id
    reindex_id := none
    part_index := r.page }

/-- The indexed loop of the flat extractor: entries lacking all three
Prompt Flow keys (and `undefined` entries) are skipped, the index still
advancing. -/
def flatLoop : Nat → List (Option RawCitation) → List Citation
  | _, [] => []
  | i, none :: rest => flatLoop (i + 1) rest
  | i, some r :: rest =>
    if hasPFKeysR r then normFlat i r :: flatLoop (i + 1) rest
    else flatLoop (i + 1) rest

/-- The first file variant's `extractPromptFlowCitations`, reading the
top-level `citations` array. -/
def extractPromptFlowCitationsFlat (answer : AskResponse) : List Citation :=
  match answer.citations with
  | none => []
  | some cits => flatLoop 0 cits

/-- Citation construction of the structured (choices/messages) extractor,
fields `docId`/`source`/`filepath`/`url`, on a possibly `undefined` array
element (all reads are optional-chained). -/
def normStruct (i : Nat) (pf : Option RawCitation) : Citation :=
  match pf with
  | none =>
    { id := toString (i + 1)
      content := some ""
      title := none
      filepath := none
      url := none
      metadata := none
      chunk_id := none
      reindex_id := none
      part_index := none }
  | some r =>
    { id := r.docId.getD (toString (i + 1))
      content := some (r.content.getD "")
      title := r.title
      filepath := r.source <|> r.filepath
      url := r.url
      metadata := match r.page with
        | some n => some (pageJson n)
        | none => r.metadata
      chunk_id := r.chunk_id
      reindex_id := none
      part_index := r.page }

/-- The indexed loop over one structured `citations` array (no skipping). -/
def structLoop : Nat → List (Option RawCitation) → List Citation
  | _, [] => []
  | i, pf :: rest => normStruct i pf :: structLoop (i + 1) rest

/-- The content object a tool message contributes: `null`/`undefined`
content and strings failing `JSON.parse` contribute nothing. -/
def msgContentObj (m : Message) : Option ContentObj :=
  match m.content with
  | some (.parsedStr o) => some o
  | some (.objVal o) => some o
  | _ => none

/-- Citations contributed by one message of the structured extractor. -/
def msgCitations (m : Message) : List Citation :=
  if m.role = some "tool" then
    match msgContentObj m with
    | some o =>
      match o.citations with
      | some cits => structLoop 0 cits
      | none => []
    | none => []
  else []

/-- Citations contributed by one choice of the structured extractor. -/
def choiceCitations (ch : Choice) : List Citation :=
  match ch.messages with
  | some msgs => (msgs.map msgCitations).flatten
  | none => []

/-- The second/third file variants' `extractPromptFlowCitations`, walking
`choices[].messages[]` tool messages. -/
def extractPromptFlowCitationsStructured (answer : AskResponse) : List Citation :=
  match answer.choices with
  | none => []
  | some chs => (chs.map choiceCitations).flatten

/-- The fallback `pfCitations.forEach((c, idx) => c.reindex_id = (idx + 1).toString())`. -/
def reindexFrom : Nat → List Citation → List Citation
  | _, [] => []
  | k, c :: rest =>
    { c with reindex_id := some (toString (k + 1)) } :: reindexFrom (k + 1) rest

/-- The exported `parseAnswer`, parameterised by the fallback extractor
(the flat one in the first file variant, the structured one in the second
and third, all else identical; the tracing calls affect no control flow). -/
def parseAnswerCore (extract : AskResponse → List Citation) (answer : AskResponse) :
    JsOutcome (Option ParsedAnswer) :=
  match answer.answer with
  | .str answerText =>
    match inlineFold answer.citations (scanMarkers answerText) answerText [] 0 with
    | .thrown => .thrown
    | .ret (text, filtered, _) =>
      let filtered2 :=
        if filtered.length = 0 then
          let pf := extract answer
          if 0 < pf.length then reindexFrom 0 pf else filtered
        else filtered
      .ret (some { citations := enumerateCitations filtered2
                   markdownFormatText := text
                   generated_chart := answer.generated_chart })
  | _ => .ret none

/-- `parseAnswer` of the first file variant (flat fallback). -/
def parseAnswerFlat : AskResponse → JsOutcome (Option ParsedAnswer) :=
  parseAnswerCore extractPromptFlowCitationsFlat

/-- `parseAnswer` of the second and third file variants (structured fallback). -/
def parseAnswerStructured : AskResponse → JsOutcome (Option ParsedAnswer) :=
  parseAnswerCore extractPromptFlowCitationsStructured

/-- The `typeof answer.answer === "string"` test. -/
def AnswerField.isStr : AnswerField → Bool
  | .str _ => true
  | _ => false

/-- The documented `parsePlotFromMessage` helper of `Chat.tsx` (quoted in
the repository's image-pipeline documentation): reads the last
`all_exec_results` element's `code_exec_result` from a tool message's
string content; every failure path (wrong role, non-string content, parse
failure, absent or empty array, absent field) is caught and yields `null`. -/
def parsePlotFromMessage (message : Option Message) : Option String :=
  match message with
  | none => none
  | some msg =>
    if msg.role = some "tool" then
      match msg.content with
      | some (.parsedStr o) =>
        match o.all_exec_results with
        | none => none
        | some l =>
          match l.getLast? with
          | none => none
          | some er => er.code_exec_result
      | _ => none
    else none

/-- Projection of a citation onto the fields no re-indexing or enumeration
pass ever touches. -/
structure CiteCore where
  id : String
  content : Option String
  title : Option String
  filepath : Option String
  url : Option String
  metadata : Option String
  chunk_id : Option String
deriving DecidableEq

/-- Forgets `reindex_id` and `part_index`. -/
def Citation.core (c : Citation) : CiteCore :=
  { id := c.id
    content := c.content
    title := c.title
    filepath := c.filepath
    url := c.url
    metadata := c.metadata
    chunk_id := c.chunk_id }

/-- Number of occurrences of the grouping key `f` in a list of filepaths. -/
def countKey (f : Option String) : List (Option String) → Nat
  | [] => 0
  | g :: rest => (if g = f then 1 else 0) + countKey f rest

/-- Specification of the enumeration pass on a list of filepaths, given the
filepaths already seen: the position-wise running counter per key. -/
def countPrev : List (Option String) → List (Option String) → List Nat
  | _, [] => []
  | seen, f :: rest => (countKey f seen + 1) :: countPrev (seen ++ [f]) rest

/-- Distinct elements of a list in first-seen order, appended to `seen`. -/
def addNew : List String → List String → List String
  | seen, [] => seen
  | seen, s :: rest =>
    if s ∈ seen then addNew seen rest else addNew (seen ++ [s]) rest

/-- Whether an inline link's index resolves to a present pool entry. -/
def resolvesB (pool : List (Option RawCitation)) (link : String) : Bool :=
  (resolveIdx pool (idxStrOf link)).isSome

/-- Whether a flat-array entry is recognized as a Prompt Flow citation. -/
def isPFEntry : Option RawCitation → Bool
  | some r => hasPFKeysR r
  | none => false

/-- The `citations` arrays the structured extractor's walk encounters, in
walk order. -/
def msgCitationArrays (m : Message) : List (List (Option RawCitation)) :=
  if m.role = some "tool" then
    match msgContentObj m with
    | some o =>
      match o.citations with
      | some cits => [cits]
      | none => []
    | none => []
  else []

/-- All structured tool-message citation arrays of a payload, in walk order. -/
def toolCitationArrays (answer : AskResponse) : List (List (Option RawCitation)) :=
  match answer.choices with
  | none => []
  | some chs =>
    (chs.map (fun ch =>
      match ch.messages with
      | some msgs => (msgs.map msgCitationArrays).flatten
      | none => [])).flatten

section EnumLemmas

theorem countKey_append (f : Option String) (a b : List (Option String)) :
    countKey f (a ++ b) = countKey f a + countKey f b := by
  induction a with
  | nil => simp [countKey]
  | cons g rest ih => simp [countKey, ih]; omega

theorem enumGo_map_reindex (l : List Citation) :
    ∀ m, (enumGo m l).map (fun c => c.reindex_id) = l.map (fun c => c.reindex_id) := by
  induction l with
  | nil => intro m; simp [enumGo]
  | cons c rest ih => intro m; simp [enumGo, ih]

theorem enumGo_map_id (l : List Citation) :
    ∀ m, (enumGo m l).map (fun c => c.id) = l.map (fun c => c.id) := by
  induction l with
  | nil => intro m; simp [enumGo]
  | cons c rest ih => intro m; simp [enumGo, ih]

theorem enumGo_map_core (l : List Citation) :
    ∀ m, (enumGo m l).map Citation.core = l.map Citation.core := by
  induction l with
  | nil => intro m; simp [enumGo]
  | cons c rest ih => intro m; simp [enumGo, ih, Citation.core]

theorem enumGo_length (l : List Citation) :
    ∀ m, (enumGo m l).length = l.length := by
  induction l with
  | nil => intro m; simp [enumGo]
  | cons c rest ih => intro m; simp [enumGo, ih]

theorem enumGo_part (l : List Citation) :
    ∀ m seen, (∀ f, (mapGet m f).getD 0 = countKey f seen) →
    (enumGo m l).map (fun c => c.part_index) =
      (countPrev seen (l.map (fun c => c.filepath))).map some := by
  induction l with
  | nil => intro m seen _; simp [enumGo, countPrev]
  | cons c rest ih =>
    intro m seen hinv
    have hpart : (match mapGet m c.filepath with | some n => n + 1 | none => 1) =
        countKey c.filepath seen + 1 := by
      have h := hinv c.filepath
      cases hm : mapGet m c.filepath <;> simp [hm] at h ⊢ <;> try omega
    have hinv' : ∀ f, (mapGet ((c.filepath, countKey c.filepath seen + 1) :: m) f).getD 0 =
        countKey f (seen ++ [c.filepath]) := by
      intro f
      rw [countKey_append]
      by_cases hf : c.filepath = f
      · subst hf; simp [mapGet, countKey]
      · simp [mapGet, hf, hinv f, countKey]
    simp only [enumGo, List.map_cons, countPrev, hpart]
    rw [ih _ _ hinv']

/-- The enumeration pass characterised: each citation's `part_index` becomes
the running per-filepath counter, everything else is untouched. -/
theorem enumerateCitations_part (l : List Citation) :
    (enumerateCitations l).map (fun c => c.part_index) =
      (countPrev [] (l.map (fun c => c.filepath))).map some := by
  apply enumGo_part
  intro f; simp [mapGet, countKey]

end EnumLemmas

section FoldLemmas

theorem find?_id_none (acc : List Citation) (s : String) :
    acc.find? (fun c => c.id == s) = none ↔ s ∉ acc.map (fun c => c.id) := by
  induction acc with
  | nil => simp
  | cons c rest ih =>
    by_cases h : c.id = s
    · simp [List.find?_cons, h]
    · have hb : (c.id == s) = false := by simpa using h
      simp [List.find?_cons, hb, ih, h, Ne.symm h]

theorem inlineFold_total (links : List String) :
    ∀ pool text acc k, ∃ out,
      inlineFold (some pool) links text acc k = .ret out := by
  induction links with
  | nil => intro pool text acc k; exact ⟨(text, acc, k), rfl⟩
  | cons link rest ih =>
    intro pool text acc k
    cases hres : resolveIdx pool (idxStrOf link) with
    | none => simpa [inlineFold, hres] using ih pool text acc k
    | some r =>
      cases hfind : acc.find? (fun c => c.id == idxStrOf link) with
      | none => simpa [inlineFold, hres, hfind] using ih pool _ _ _
      | some c => simpa [inlineFold, hres, hfind] using ih pool text acc k

theorem inlineFold_length_le (links : List String) :
    ∀ pool text acc k t a k',
      inlineFold (some pool) links text acc k = .ret (t, a, k') →
      acc.length ≤ a.length := by
  induction links with
  | nil => intro pool text acc k t a k' h; simp [inlineFold] at h; simp [h.2.1.symm]
  | cons link rest ih =>
    intro pool text acc k t a k' h
    cases hres : resolveIdx pool (idxStrOf link) with
    | none =>
      simp only [inlineFold, hres] at h
      exact ih pool _ _ _ _ _ _ h
    | some r =>
      cases hfind : acc.find? (fun c => c.id == idxStrOf link) with
      | none =>
        simp only [inlineFold, hres, hfind] at h
        have := ih pool _ _ _ _ _ _ h
        simpa using Nat.le_trans (by simp) this
      | some c =>
        simp only [inlineFold, hres, hfind] at h
        exact ih pool _ _ _ _ _ _ h

theorem inlineFold_nonempty (links : List String) :
    ∀ pool text acc k t a k' link,
      link ∈ links → resolvesB pool link = true →
      inlineFold (some pool) links text acc k = .ret (t, a, k') →
      a ≠ [] := by
  induction links with
  | nil => intro pool text acc k t a k' link hmem; simp at hmem
  | cons l0 rest ih =>
    intro pool text acc k t a k' link hmem hres hfold
    cases hres0 : resolveIdx pool (idxStrOf l0) with
    | none =>
      simp only [inlineFold, hres0] at hfold
      rcases List.mem_cons.mp hmem with hb | hb
      · subst hb
        simp [resolvesB, hres0] at hres
      · exact ih pool _ _ _ _ _ _ link hb hres hfold
    | some r =>
      cases hfind : acc.find? (fun c => c.id == idxStrOf l0) with
      | none =>
        simp only [inlineFold, hres0, hfind] at hfold
        have hle := inlineFold_length_le rest pool _ _ _ _ _ _ hfold
        intro hnil
        rw [hnil] at hle
        simp at hle
      | some c =>
        simp only [inlineFold, hres0, hfind] at hfold
        rcases List.mem_cons.mp hmem with hb | hb
        · intro hnil
          rw [hnil] at hfold
          have : acc.find? (fun c => c.id == idxStrOf l0) = none := by
            have hle := inlineFold_length_le rest pool _ _ _ _ _ _ hfold
            have : acc = [] := List.eq_nil_of_length_eq_zero (Nat.le_zero.mp (by simpa using hle))
            simp [this]
          simp [this] at hfind
        · exact ih pool _ _ _ _ _ _ link hb hres hfold

theorem inlineFold_reindex (links : List String) :
    ∀ pool text acc k t a k',
      inlineFold (some pool) links text acc k = .ret (t, a, k') →
      acc.length = k →
      acc.map (fun c => c.reindex_id) =
        (List.range k).map (fun i => some (toString (i + 1))) →
      a.length = k' ∧
      a.map (fun c => c.reindex_id) =
        (List.range k').map (fun i => some (toString (i + 1))) := by
  induction links with
  | nil =>
    intro pool text acc k t a k' h hlen hmap
    simp only [inlineFold, JsOutcome.ret.injEq, Prod.mk.injEq] at h
    obtain ⟨-, h2, h3⟩ := h
    subst h2; subst h3
    exact ⟨hlen, hmap⟩
  | cons link rest ih =>
    intro pool text acc k t a k' h hlen hmap
    cases hres : resolveIdx pool (idxStrOf link) with
    | none =>
      simp only [inlineFold, hres] at h
      exact ih pool _ _ _ _ _ _ h hlen hmap
    | some r =>
      cases hfind : acc.find? (fun c => c.id == idxStrOf link) with
      | none =>
        simp only [inlineFold, hres, hfind] at h
        refine ih pool _ _ _ _ _ _ h (by simp [hlen]) ?_
        rw [List.map_append, hmap, List.range_succ, List.map_append]
        simp [cloneWithIndex]
      | some c =>
        simp only [inlineFold, hres, hfind] at h
        exact ih pool _ _ _ _ _ _ h hlen hmap

theorem inlineFold_ids (links : List String) :
    ∀ pool text acc k t a k',
      inlineFold (some pool) links text acc k = .ret (t, a, k') →
      a.map (fun c => c.id) =
        addNew (acc.map (fun c => c.id))
          ((links.filter (resolvesB pool)).map idxStrOf) := by
  induction links with
  | nil =>
    intro pool text acc k t a k' h
    simp only [inlineFold, JsOutcome.ret.injEq, Prod.mk.injEq] at h
    obtain ⟨-, h2, -⟩ := h
    subst h2
    simp [addNew]
  | cons link rest ih =>
    intro pool text acc k t a k' h
    cases hres : resolveIdx pool (idxStrOf link) with
    | none =>
      simp only [inlineFold, hres] at h
      have hr : resolvesB pool link = false := by simp [resolvesB, hres]
      simpa [List.filter_cons, hr] using ih pool _ _ _ _ _ _ h
    | some r =>
      have hr : resolvesB pool link = true := by simp [resolvesB, hres]
      cases hfind : acc.find? (fun c => c.id == idxStrOf link) with
      | none =>
        simp only [inlineFold, hres, hfind] at h
        have hnotmem : idxStrOf link ∉ acc.map (fun c => c.id) :=
          (find?_id_none acc (idxStrOf link)).mp hfind
        have := ih pool _ _ _ _ _ _ h
        rw [this]
        simp [List.filter_cons, hr, addNew, hnotmem, cloneWithIndex]
      | some c =>
        simp only [inlineFold, hres, hfind] at h
        have hmem : idxStrOf link ∈ acc.map (fun c => c.id) := by
          by_contra hn
          rw [← find?_id_none acc (idxStrOf link)] at hn
          simp [hn] at hfind
        have := ih pool _ _ _ _ _ _ h
        rw [this]
        simp [List.filter_cons, hr, addNew, hmem]

theorem inlineFold_core (links : List String) :
    ∀ pool text acc k t a k',
      inlineFold (some pool) links text acc k = .ret (t, a, k') →
      ∃ added, a = acc ++ added := by
  induction links with
  | nil =>
    intro pool text acc k t a k' h
    simp only [inlineFold, JsOutcome.ret.injEq, Prod.mk.injEq] at h
    exact ⟨[], by simp [h.2.1.symm]⟩
  | cons link rest ih =>
    intro pool text acc k t a k' h
    cases hres : resolveIdx pool (idxStrOf link) with
    | none =>
      simp only [inlineFold, hres] at h
      exact ih pool _ _ _ _ _ _ h
    | some r =>
      cases hfind : acc.find? (fun c => c.id == idxStrOf link) with
      | none =>
        simp only [inlineFold, hres, hfind] at h
        obtain ⟨added, ha⟩ := ih pool _ _ _ _ _ _ h
        exact ⟨cloneWithIndex r (idxStrOf link) (k + 1) :: added, by simp [ha]⟩
      | some c =>
        simp only [inlineFold, hres, hfind] at h
        exact ih pool _ _ _ _ _ _ h

theorem inlineFold_untouched (links : List String) :
    ∀ pool text acc k,
      (∀ link ∈ links, resolvesB pool link = false) →
      inlineFold (some pool) links text acc k = .ret (text, acc, k) := by
  induction links with
  | nil => intro pool text acc k _; simp [inlineFold]
  | cons link rest ih =>
    intro pool text acc k hall
    have h0 : resolvesB pool link = false := hall link (by simp)
    have hres : resolveIdx pool (idxStrOf link) = none := by
      simpa [resolvesB] using h0
    simp only [inlineFold, hres]
    exact ih pool text acc k (fun l hl => hall l (by simp [hl]))

end FoldLemmas

section ExtractorLemmas

theorem reindexFrom_map_reindex (l : List Citation) :
    ∀ k, (reindexFrom k l).map (fun c => c.reindex_id) =
      (List.range l.length).map (fun i => some (toString (k + i + 1))) := by
  induction l with
  | nil => intro k; simp [reindexFrom]
  | cons c rest ih =>
    intro k
    rw [List.length_cons, List.range_succ_eq_map, List.map_cons, List.map_map]
    simp only [reindexFrom, List.map_cons]
    congr 1
    rw [ih (k + 1)]
    apply List.map_congr_left
    intro a _
    simp only [Function.comp_apply]
    congr 2
    omega

theorem reindexFrom_map_core (l : List Citation) :
    ∀ k, (reindexFrom k l).map Citation.core = l.map Citation.core := by
  induction l with
  | nil => intro k; simp [reindexFrom]
  | cons c rest ih => intro k; simp [reindexFrom, ih, Citation.core]

theorem reindexFrom_length (l : List Citation) :
    ∀ k, (reindexFrom k l).length = l.length := by
  induction l with
  | nil => intro k; simp [reindexFrom]
  | cons c rest ih => intro k; simp [reindexFrom, ih]

theorem structLoop_length (cits : List (Option RawCitation)) :
    ∀ i, (structLoop i cits).length = cits.length := by
  induction cits with
  | nil => intro i; simp [structLoop]
  | cons pf rest ih => intro i; simp [structLoop, ih]

theorem flatLoop_length_allPF (cits : List (Option RawCitation)) :
    ∀ i, (∀ pf ∈ cits, isPFEntry pf = true) →
      (flatLoop i cits).length = cits.length := by
  induction cits with
  | nil => intro i _; simp [flatLoop]
  | cons pf rest ih =>
    intro i hall
    cases pf with
    | none => simpa [isPFEntry] using hall none (by simp)
    | some r =>
      have hk : hasPFKeysR r = true := by simpa [isPFEntry] using hall (some r) (by simp)
      simp only [flatLoop, hk, if_true, List.length_cons]
      rw [ih (i + 1) (fun pf hpf => hall pf (by simp [hpf]))]

theorem msgCitations_eq_arrays (m : Message) :
    msgCitations m = ((msgCitationArrays m).map (structLoop 0)).flatten := by
  unfold msgCitations msgCitationArrays
  by_cases hrole : m.role = some "tool"
  · simp only [hrole, if_true]
    cases msgContentObj m with
    | none => simp
    | some o => cases hc : o.citations <;> simp [hc]
  · simp [hrole]

theorem choiceCitations_eq_arrays (ch : Choice) :
    choiceCitations ch =
      (((match ch.messages with
         | some msgs => (msgs.map msgCitationArrays).flatten
         | none => []).map (structLoop 0)).flatten) := by
  unfold choiceCitations
  cases ch.messages with
  | none => simp
  | some msgs =>
    simp only
    induction msgs with
    | nil => simp
    | cons m rest ih =>
      simp only [List.map_cons, List.flatten_cons, List.map_append, List.flatten_append]
      rw [msgCitations_eq_arrays m, ih]

theorem extractStructured_eq_arrays (answer : AskResponse) :
    extractPromptFlowCitationsStructured answer =
      ((toolCitationArrays answer).map (structLoop 0)).flatten := by
  unfold extractPromptFlowCitationsStructured toolCitationArrays
  cases answer.choices with
  | none => simp
  | some chs =>
    simp only
    induction chs with
    | nil => simp
    | cons ch rest ih =>
      simp only [List.map_cons, List.flatten_cons, List.map_append, List.flatten_append]
      rw [choiceCitations_eq_arrays ch, ih]

theorem addNew_mem (l : List String) :
    ∀ seen x, x ∈ addNew seen l ↔ x ∈ seen ∨ x ∈ l := by
  induction l with
  | nil => intro seen x; simp [addNew]
  | cons s rest ih =>
    intro seen x
    by_cases hs : s ∈ seen
    · rw [addNew, if_pos hs, ih]
      constructor
      · rintro (h | h)
        · exact Or.inl h
        · exact Or.inr (by simp [h])
      · rintro (h | h)
        · exact Or.inl h
        · rcases List.mem_cons.mp h with h | h
          · exact Or.inl (h ▸ hs)
          · exact Or.inr h
    · rw [addNew, if_neg hs, ih]
      constructor
      · rintro (h | h)
        · rcases List.mem_append.mp h with h | h
          · exact Or.inl h
          · simp at h; simp [h]
        · exact Or.inr (by simp [h])
      · rintro (h | h)
        · exact Or.inl (by simp [h])
        · rcases List.mem_cons.mp h with h | h
          · exact Or.inl (by simp [h])
          · exact Or.inr h

theorem addNew_nodup (l : List String) :
    ∀ seen, seen.Nodup → (addNew seen l).Nodup := by
  induction l with
  | nil => intro seen h; simpa [addNew] using h
  | cons s rest ih =>
    intro seen h
    by_cases hs : s ∈ seen
    · rw [addNew, if_pos hs]; exact ih seen h
    · rw [addNew, if_neg hs]
      refine ih _ ?_
      simp [List.nodup_append, h, hs]

end ExtractorLemmas

section CoreLemmas

/-- Unfolding of `parseAnswer` on a string answer whose inline pass
completes: the fallback is consulted exactly when the inline pass yielded
no citation. -/
theorem parseAnswerCore_eq (extract : AskResponse → List Citation)
    (p : AskResponse) (s : String) (hs : p.answer = .str s)
    (t : String) (acc : List Citation) (k : Nat)
    (hfold : inlineFold p.citations (scanMarkers s) s [] 0 = .ret (t, acc, k)) :
    parseAnswerCore extract p = .ret (some
      { citations := enumerateCitations
          (if acc.length = 0 then
            (if 0 < (extract p).length then reindexFrom 0 (extract p) else acc)
           else acc)
        markdownFormatText := t
        generated_chart := p.generated_chart }) := by
  unfold parseAnswerCore
  rw [hs]
  simp only [hfold]

/-- A throwing inline pass propagates out of `parseAnswer`. -/
theorem parseAnswerCore_thrown (extract : AskResponse → List Citation)
    (p : AskResponse) (s : String) (hs : p.answer = .str s)
    (hfold : inlineFold p.citations (scanMarkers s) s [] 0 = .thrown) :
    parseAnswerCore extract p = .thrown := by
  unfold parseAnswerCore
  rw [hs]
  simp only [hfold]

/-- A non-string answer short-circuits to the `null` result. -/
theorem parseAnswerCore_notStr (extract : AskResponse → List Citation)
    (p : AskResponse) (hns : p.answer.isStr = false) :
    parseAnswerCore extract p = .ret none := by
  unfold parseAnswerCore
  cases h : p.answer with
  | str s => rw [h] at hns; simp [AnswerField.isStr] at hns
  | num n => rfl
  | absent => rfl

end CoreLemmas

section SharedFacts

/-- The `generated_chart` field of any returned result is the payload's own
`generated_chart` field, verbatim. -/
theorem genChart_passthrough (extract : AskResponse → List Citation)
    (p : AskResponse) (s : String) (r : ParsedAnswer)
    (hs : p.answer = .str s)
    (hret : parseAnswerCore extract p = .ret (some r)) :
    r.generated_chart = p.generated_chart := by
  cases hfold : inlineFold p.citations (scanMarkers s) s [] 0 with
  | thrown =>
    rw [parseAnswerCore_thrown extract p s hs hfold] at hret
    simp at hret
  | ret v =>
    obtain ⟨t, acc, k⟩ := v
    rw [parseAnswerCore_eq extract p s hs t acc k hfold] at hret
    simp only [JsOutcome.ret.injEq, Option.some.injEq] at hret
    rw [← hret]

end SharedFacts

section ConcreteInputs

/-- Inline pool of the spec's two-marker scenario. -/
def pool6 : List (Option RawCitation) :=
  [some { id := some "doc1v", filepath := some "f1.pdf" },
   some { id := some "doc2v", filepath := some "f1.pdf" }]

/-- Payload of the spec's two-marker scenario. -/
def pay6 : AskResponse :=
  { answer := .str "See [doc1] and [doc2].", citations := some pool6,
    generated_chart := .null }

/-- The result the two-marker scenario resolves to. -/
def expected6 : ParsedAnswer :=
  { citations := [
      { id := "1", content := none, title := none, filepath := some "f1.pdf",
        url := none, metadata := none, chunk_id := none,
        reindex_id := some "1", part_index := some 1 },
      { id := "2", content := none, title := none, filepath := some "f1.pdf",
        url := none, metadata := none, chunk_id := none,
        reindex_id := some "2", part_index := some 2 }]
    markdownFormatText := "See  ^1^  and  ^2^ ."
    generated_chart := .null }

end ConcreteInputs

/-- C1: a payload whose answer text has at least one inline marker that
resolves to a pool entry yields only the inline-derived citations (the
enumeration of the inline pass's accumulator); the tool-message fallback
extractors are never attempted — both file variants return the same
result, and the structured variant's result does not depend on the
`choices` structure at all. -/
theorem claim1_inline_precedence (p : AskResponse) (s : String)
    (pool : List (Option RawCitation))
    (hs : p.answer = .str s) (hpool : p.citations = some pool)
    (hres : ∃ link ∈ scanMarkers s, resolvesB pool link = true) :
    ∃ t cits k,
      inlineFold p.citations (scanMarkers s) s [] 0 = .ret (t, cits, k) ∧
      cits ≠ [] ∧
      parseAnswerFlat p = .ret (some
        { citations := enumerateCitations cits
          markdownFormatText := t
          generated_chart := p.generated_chart }) ∧
      parseAnswerStructured p = parseAnswerFlat p ∧
      (∀ ch, parseAnswerStructured { p with choices := ch } =
        parseAnswerStructured p) := by
  obtain ⟨link, hmem, hlink⟩ := hres
  obtain ⟨⟨t, cits, k⟩, hfold⟩ := inlineFold_total (scanMarkers s) pool s [] 0
  rw [← hpool] at hfold
  have hne : cits ≠ [] := by
    rw [hpool] at hfold
    exact inlineFold_nonempty (scanMarkers s) pool s [] 0 t cits k link hmem hlink hfold
  have hlen : ¬ (cits.length = 0) := by
    intro h0
    exact hne (List.eq_nil_of_length_eq_zero h0)
  refine ⟨t, cits, k, hfold, hne, ?_, ?_, ?_⟩
  · unfold parseAnswerFlat
    rw [parseAnswerCore_eq extractPromptFlowCitationsFlat p s hs t cits k hfold]
    simp [hlen]
  · unfold parseAnswerFlat parseAnswerStructured
    rw [parseAnswerCore_eq extractPromptFlowCitationsFlat p s hs t cits k hfold,
      parseAnswerCore_eq extractPromptFlowCitationsStructured p s hs t cits k hfold]
    simp [hlen]
  · intro ch
    have hs' : ({ p with choices := ch } : AskResponse).answer = .str s := hs
    have hfold' : inlineFold ({ p with choices := ch } : AskResponse).citations
        (scanMarkers s) s [] 0 = .ret (t, cits, k) := hfold
    unfold parseAnswerStructured
    rw [parseAnswerCore_eq extractPromptFlowCitationsStructured _ s hs' t cits k hfold',
      parseAnswerCore_eq extractPromptFlowCitationsStructured p s hs t cits k hfold]
    simp [hlen]

/-- Witness for C1 at the two-marker scenario payload. -/
theorem claim1_witness :
    ∃ t cits k,
      inlineFold pay6.citations (scanMarkers "See [doc1] and [doc2].")
        "See [doc1] and [doc2]." [] 0 = .ret (t, cits, k) ∧
      cits ≠ [] ∧
      parseAnswerFlat pay6 = .ret (some
        { citations := enumerateCitations cits
          markdownFormatText := t
          generated_chart := pay6.generated_chart }) ∧
      parseAnswerStructured pay6 = parseAnswerFlat pay6 ∧
      (∀ ch, parseAnswerStructured { pay6 with choices := ch } =
        parseAnswerStructured pay6) :=
  claim1_inline_precedence pay6 "See [doc1] and [doc2]." pool6 rfl rfl
    ⟨"[doc1]", by decide, by decide⟩

/-- C4: a payload whose answer field is absent or not a string (for
example a number) makes both `parseAnswer` variants return the explicit
`null` result — no exception and no partial result. -/
theorem claim4_nonstring_answer_returns_null (p : AskResponse)
    (h : p.answer.isStr = false) :
    parseAnswerFlat p = .ret none ∧ parseAnswerStructured p = .ret none :=
  ⟨parseAnswerCore_notStr _ p h, parseAnswerCore_notStr _ p h⟩

/-- Witness for C4 at a payload whose answer is the number 3. -/
theorem claim4_witness :
    parseAnswerFlat { answer := .num 3 } = .ret none ∧
      parseAnswerStructured { answer := .num 3 } = .ret none :=
  claim4_nonstring_answer_returns_null { answer := .num 3 } rfl

/-- C6: the scenario `answerText = "See [doc1] and [doc2]."` with a
two-entry pool on filepath `f1.pdf` replaces each marker by a space-padded
superscript placeholder with an incrementing counter, yielding markdown
text `"See  ^1^  and  ^2^ ."` and two citations with `part_index` `[1, 2]`
(identically in both file variants). -/
theorem claim6_inline_scenario :
    parseAnswerFlat pay6 = .ret (some expected6) ∧
    parseAnswerStructured pay6 = .ret (some expected6) ∧
    expected6.markdownFormatText = "See  ^1^  and  ^2^ ." ∧
    expected6.citations.map (fun c => c.part_index) = [some 1, some 2] := by
  decide

/-- C7: the enumeration pass assigns `part_index` in list order as a
running counter keyed by `filepath` (`countPrev`, starting at 1 per
distinct key, the `null` filepath being one group), depends on nothing
but the filepaths (so any seed is overwritten), leaves every other field
unchanged; on filepaths `[A, A, B]` (with stale seeds) it yields
`[1, 2, 1]`. -/
theorem claim7_part_index_enumeration :
    (∀ cits : List Citation,
      (enumerateCitations cits).map (fun c => c.part_index) =
        (countPrev [] (cits.map (fun c => c.filepath))).map some ∧
      (enumerateCitations cits).map Citation.core = cits.map Citation.core ∧
      (enumerateCitations cits).map (fun c => c.reindex_id) =
        cits.map (fun c => c.reindex_id)) ∧
    (enumerateCitations [
      { id := "x1", content := none, title := none, filepath := some "A",
        url := none, metadata := none, chunk_id := none, reindex_id := none,
        part_index := some 7 },
      { id := "x2", content := none, title := none, filepath := some "A",
        url := none, metadata := none, chunk_id := none, reindex_id := none,
        part_index := some 9 },
      { id := "x3", content := none, title := none, filepath := some "B",
        url := none, metadata := none, chunk_id := none, reindex_id := none,
        part_index := none }]).map (fun c => c.part_index) =
      [some 1, some 2, some 1] :=
  ⟨fun cits => ⟨enumerateCitations_part cits, enumGo_map_core cits [],
    enumGo_map_reindex cits []⟩, by decide⟩

/-- C9: the chart extractor `parsePlotFromMessage` yields `null` for a
missing or non-tool message, unparseable string content, an absent or
empty `all_exec_results` array, and otherwise returns the last execution
result's `code_exec_result` field (`null` when that field is absent);
being a total function, no exception escapes it.  The resolver itself
always hands back the payload's raw `generated_chart` field, which its
caller pre-fills from this helper. -/
theorem claim9_chart_extractor :
    (parsePlotFromMessage none = none) ∧
    (∀ m : Message, m.role ≠ some "tool" → parsePlotFromMessage (some m) = none) ∧
    (∀ (m : Message) (u : String), m.content = some (.malformed u) →
      parsePlotFromMessage (some m) = none) ∧
    (∀ (m : Message) (o : ContentObj), m.content = some (.parsedStr o) →
      o.all_exec_results = none → parsePlotFromMessage (some m) = none) ∧
    (∀ (m : Message) (o : ContentObj), m.content = some (.parsedStr o) →
      o.all_exec_results = some [] → parsePlotFromMessage (some m) = none) ∧
    (∀ (m : Message) (o : ContentObj) (l : List ExecResult) (er : ExecResult),
      m.role = some "tool" → m.content = some (.parsedStr o) →
      o.all_exec_results = some l → l.getLast? = some er →
      parsePlotFromMessage (some m) = er.code_exec_result) ∧
    (∀ (extract : AskResponse → List Citation) (p : AskResponse) (s : String)
      (r : ParsedAnswer), p.answer = .str s →
      parseAnswerCore extract p = .ret (some r) →
      r.generated_chart = p.generated_chart) := by
  refine ⟨rfl, ?_, ?_, ?_, ?_, ?_, ?_⟩
  · intro m hr
    simp [parsePlotFromMessage, hr]
  · intro m u hc
    by_cases hr : m.role = some "tool"
    · simp [parsePlotFromMessage, hr, hc]
    · simp [parsePlotFromMessage, hr]
  · intro m o hc hexec
    by_cases hr : m.role = some "tool"
    · simp [parsePlotFromMessage, hr, hc, hexec]
    · simp [parsePlotFromMessage, hr]
  · intro m o hc hexec
    by_cases hr : m.role = some "tool"
    · simp [parsePlotFromMessage, hr, hc, hexec]
    · simp [parsePlotFromMessage, hr]
  · intro m o l er hr hc hexec hlast
    simp [parsePlotFromMessage, hr, hc, hexec, hlast]
  · exact fun extract p s r hs hret => genChart_passthrough extract p s r hs hret

/-- Witness for C9: a tool message whose single execution result carries
a chart yields exactly that chart. -/
theorem claim9_witness :
    parsePlotFromMessage (some
      { role := some "tool"
        content := some (.parsedStr
          { all_exec_results := some [{ code_exec_result := some "IMG" }] }) }) =
      some "IMG" :=
  claim9_chart_extractor.2.2.2.2.2.1
    { role := some "tool"
      content := some (.parsedStr
        { all_exec_results := some [{ code_exec_result := some "IMG" }] }) }
    { all_exec_results := some [{ code_exec_result := some "IMG" }] }
    [{ code_exec_result := some "IMG" }] { code_exec_result := some "IMG" }
    rfl rfl rfl rfl

/-- A payload falsifying C10 as stated: its answer is a string, yet
`parseAnswer` returns no value at all — the text contains a marker and the
citation pool is absent, so indexing the pool throws. -/
def cex10 : AskResponse :=
  { answer := .str "x [doc2] y", generated_chart := .str "CHART" }

/-- Counterexample to C10: on `cex10` (string answer, chart field set)
both `parseAnswer` variants throw, so no `generated_chart` value is
returned for this string-answer payload. -/
theorem claim10_counterexample_throwing_payload :
    parseAnswerFlat cex10 = .thrown ∧ parseAnswerStructured cex10 = .thrown := by
  decide

/-- C10 (amended): whenever `parseAnswer` returns on a string-answer
payload, its `generated_chart` is strictly identical to the payload's
`generated_chart` field — in particular `undefined`, not `null`, when the
field is absent — and the value never depends on the `choices` structure
(chart extraction from tool messages happens only in the caller's
separate `parsePlotFromMessage` helper). -/
theorem claim10_amended_chart_passthrough
    (extract : AskResponse → List Citation) (p : AskResponse) (s : String)
    (r : ParsedAnswer) (hs : p.answer = .str s)
    (hret : parseAnswerCore extract p = .ret (some r)) :
    r.generated_chart = p.generated_chart ∧
    (p.generated_chart = .undef → r.generated_chart = .undef) ∧
    (∀ ch (r' : ParsedAnswer),
      parseAnswerCore extract { p with choices := ch } = .ret (some r') →
      r'.generated_chart = r.generated_chart) := by
  have h1 : r.generated_chart = p.generated_chart :=
    genChart_passthrough extract p s r hs hret
  refine ⟨h1, fun hu => h1.trans hu, ?_⟩
  intro ch r' hret'
  have hs' : ({ p with choices := ch } : AskResponse).answer = .str s := hs
  have h2 : r'.generated_chart =
      ({ p with choices := ch } : AskResponse).generated_chart :=
    genChart_passthrough extract _ s r' hs' hret'
  rw [h2, h1]

/-- Witness for C10 at a markerless payload with an absent chart field:
the returned `generated_chart` is `undefined`. -/
theorem claim10_witness :
    ({ citations := [], markdownFormatText := "hi",
       generated_chart := .undef } : ParsedAnswer).generated_chart =
      ({ answer := .str "hi" } : AskResponse).generated_chart :=
  (claim10_amended_chart_passthrough extractPromptFlowCitationsFlat
    { answer := .str "hi" } "hi"
    { citations := [], markdownFormatText := "hi", generated_chart := .undef }
    rfl (by decide)).1

/-- A payload falsifying C5 as stated: string answer, a marker in the
text, and the citation pool absent. -/
def cex5 : AskResponse :=
  { answer := .str "see [doc1]" }

/-- Counterexample to C5: with a marker in the text and an absent
citation pool, indexing `answer.citations` throws a `TypeError` out of
both `parseAnswer` variants. -/
theorem claim5_counterexample_absent_pool_throws :
    parseAnswerFlat cex5 = .thrown ∧ parseAnswerStructured cex5 = .thrown := by
  decide

/-- C5 (amended): when the citation pool is an array, resolution of a
string-answer payload always completes (no exception), whatever the rest
of the payload contains; a marker whose index is out of range or hits an
`undefined` entry leaves the text untouched and emits no citation; a tool
message whose string content fails JSON parsing contributes zero
citations while the remaining messages are still processed.  (The claim's
pool-absent case is the amendment: there a marker in the text throws, see
the counterexample.) -/
theorem claim5_amended_no_exception :
    (∀ (extract : AskResponse → List Citation) (p : AskResponse) (s : String)
      (pool : List (Option RawCitation)),
      p.answer = .str s → p.citations = some pool →
      ∃ r : ParsedAnswer, parseAnswerCore extract p = .ret (some r)) ∧
    (∀ (s : String) (pool : List (Option RawCitation)),
      (∀ link ∈ scanMarkers s, resolvesB pool link = false) →
      inlineFold (some pool) (scanMarkers s) s [] 0 = .ret (s, [], 0)) ∧
    (∀ (m : Message) (u : String), m.content = some (.malformed u) →
      msgCitations m = []) ∧
    (∀ (pre post : List Message) (m : Message) (u : String),
      m.content = some (.malformed u) →
      choiceCitations { messages := some (pre ++ m :: post) } =
        choiceCitations { messages := some (pre ++ post) }) := by
  have hmal : ∀ (m : Message) (u : String), m.content = some (.malformed u) →
      msgCitations m = [] := by
    intro m u hc
    by_cases hr : m.role = some "tool"
    · simp [msgCitations, msgContentObj, hr, hc]
    · simp [msgCitations, hr]
  refine ⟨?_, ?_, hmal, ?_⟩
  · intro extract p s pool hs hpool
    obtain ⟨⟨t, acc, k⟩, hfold⟩ := inlineFold_total (scanMarkers s) pool s [] 0
    rw [← hpool] at hfold
    exact ⟨_, parseAnswerCore_eq extract p s hs t acc k hfold⟩
  · intro s pool hall
    exact inlineFold_untouched (scanMarkers s) pool s [] 0 hall
  · intro pre post m u hc
    simp only [choiceCitations, List.map_append, List.map_cons,
      List.flatten_append, List.flatten_cons, hmal m u hc, List.nil_append]

/-- Witness for C5: a payload with an unresolvable marker (empty pool)
and a malformed tool message still resolves, the marker left in place. -/
theorem claim5_witness :
    (∃ r : ParsedAnswer, parseAnswerCore extractPromptFlowCitationsStructured
      { answer := .str "ok [doc9]", citations := some [],
        choices := some [{ messages := some [
          { role := some "tool",
            content := some (.malformed "\x7binvalid") }] }] } = .ret (some r)) ∧
    inlineFold (some []) (scanMarkers "ok [doc9]") "ok [doc9]" [] 0 =
      .ret ("ok [doc9]", [], 0) ∧
    msgCitations
      { role := some "tool"
        content := some (.malformed "\x7binvalid") } = [] :=
  ⟨claim5_amended_no_exception.1 extractPromptFlowCitationsStructured _
      "ok [doc9]" [] rfl rfl,
    claim5_amended_no_exception.2.1 "ok [doc9]" [] (by decide),
    claim5_amended_no_exception.2.2.1 _ "\x7binvalid" rfl⟩

theorem range_map_shift (n : Nat) :
    (List.range n).map (fun i => some (toString (0 + i + 1))) =
      (List.range n).map (fun i => some (toString (i + 1))) := by
  apply List.map_congr_left
  intro a _
  norm_num

/-- Common shape of the two fallback paths: with an empty inline result,
the returned citations are the extractor's output re-indexed 1..k and
enumerated, hence exactly as many citations as the extractor yields, in
its order. -/
theorem fallback_count_reindex (extract : AskResponse → List Citation)
    (p : AskResponse) (s t : String) (k n : Nat)
    (hs : p.answer = .str s)
    (hfold : inlineFold p.citations (scanMarkers s) s [] 0 = .ret (t, [], k))
    (hn : (extract p).length = n) :
    ∃ r : ParsedAnswer, parseAnswerCore extract p = .ret (some r) ∧
      r.citations.length = n ∧
      r.citations.map (fun c => c.reindex_id) =
        (List.range n).map (fun i => some (toString (i + 1))) ∧
      r.citations.map Citation.core = (extract p).map Citation.core := by
  refine ⟨_, parseAnswerCore_eq extract p s hs t [] k hfold, ?_, ?_, ?_⟩
  · by_cases hpos : 0 < (extract p).length
    · simp only [List.length_nil, if_pos rfl, if_pos hpos]
      show (enumGo [] (reindexFrom 0 (extract p))).length = n
      rw [enumGo_length, reindexFrom_length, hn]
    · simp only [List.length_nil, if_pos rfl, if_neg hpos]
      show (enumGo [] []).length = n
      have h0 : n = 0 := by omega
      simp [enumGo, h0]
  · by_cases hpos : 0 < (extract p).length
    · simp only [List.length_nil, if_pos rfl, if_pos hpos]
      show (enumGo [] (reindexFrom 0 (extract p))).map (fun c => c.reindex_id) = _
      rw [enumGo_map_reindex, reindexFrom_map_reindex, hn, range_map_shift]
    · simp only [List.length_nil, if_pos rfl, if_neg hpos]
      show (enumGo [] []).map (fun c => c.reindex_id) = _
      have : n = 0 := by omega
      simp [this, enumGo]
  · by_cases hpos : 0 < (extract p).length
    · simp only [List.length_nil, if_pos rfl, if_pos hpos]
      show (enumGo [] (reindexFrom 0 (extract p))).map Citation.core = _
      rw [enumGo_map_core, reindexFrom_map_core]
    · simp only [List.length_nil, if_pos rfl, if_neg hpos]
      show (enumGo [] []).map Citation.core = _
      have : extract p = [] := List.eq_nil_of_length_eq_zero (by omega)
      simp [this, enumGo]

/-- C3: with zero inline citations, a flat top-level array of k
recognized Prompt Flow citation objects — or a single structured
tool-message citation array of length k — yields exactly k citations, in
array order (same cores as the extractor's output), re-indexed "1".."k". -/
theorem claim3_fallback_count_and_reindex :
    (∀ (p : AskResponse) (s t : String) (cits : List (Option RawCitation)) (k : Nat),
      p.answer = .str s → p.citations = some cits →
      inlineFold p.citations (scanMarkers s) s [] 0 = .ret (t, [], k) →
      (∀ pf ∈ cits, isPFEntry pf = true) →
      ∃ r : ParsedAnswer, parseAnswerFlat p = .ret (some r) ∧
        r.citations.length = cits.length ∧
        r.citations.map (fun c => c.reindex_id) =
          (List.range cits.length).map (fun i => some (toString (i + 1))) ∧
        r.citations.map Citation.core =
          (extractPromptFlowCitationsFlat p).map Citation.core) ∧
    (∀ (p : AskResponse) (s t : String) (cits : List (Option RawCitation)) (k : Nat),
      p.answer = .str s →
      inlineFold p.citations (scanMarkers s) s [] 0 = .ret (t, [], k) →
      toolCitationArrays p = [cits] →
      ∃ r : ParsedAnswer, parseAnswerStructured p = .ret (some r) ∧
        r.citations.length = cits.length ∧
        r.citations.map (fun c => c.reindex_id) =
          (List.range cits.length).map (fun i => some (toString (i + 1))) ∧
        r.citations.map Citation.core =
          (extractPromptFlowCitationsStructured p).map Citation.core) := by
  constructor
  · intro p s t cits k hs hpool hfold hall
    have hext : extractPromptFlowCitationsFlat p = flatLoop 0 cits := by
      unfold extractPromptFlowCitationsFlat
      rw [hpool]
    have hn : (extractPromptFlowCitationsFlat p).length = cits.length := by
      rw [hext, flatLoop_length_allPF cits 0 hall]
    exact fallback_count_reindex extractPromptFlowCitationsFlat p s t k
      cits.length hs hfold hn
  · intro p s t cits k hs hfold harr
    have hext : extractPromptFlowCitationsStructured p = structLoop 0 cits := by
      rw [extractStructured_eq_arrays, harr]
      simp
    have hn : (extractPromptFlowCitationsStructured p).length = cits.length := by
      rw [hext, structLoop_length]
    exact fallback_count_reindex extractPromptFlowCitationsStructured p s t k
      cits.length hs hfold hn

/-- The structured Prompt Flow scenario payload (the `TI46` test case). -/
def rawTI46 : RawCitation :=
  { docId := some "TI46", page := some 1, source := some "doc.pdf" }

/-- Payload with no inline markers and one structured tool-message
citation array. -/
def payS : AskResponse :=
  { answer := .str "BROEN"
    citations := some []
    generated_chart := .null
    choices := some [
      { messages := some [
          { role := some "assistant", content := some (.objVal {}) },
          { role := some "tool",
            content := some (.parsedStr { citations := some [some rawTI46] }) }] }] }

/-- Witness for C3 at the structured one-citation scenario. -/
theorem claim3_witness :
    ∃ r : ParsedAnswer, parseAnswerStructured payS = .ret (some r) ∧
      r.citations.length = [some rawTI46].length ∧
      r.citations.map (fun c => c.reindex_id) =
        (List.range [some rawTI46].length).map (fun i => some (toString (i + 1))) ∧
      r.citations.map Citation.core =
        (extractPromptFlowCitationsStructured payS).map Citation.core :=
  claim3_fallback_count_and_reindex.2 payS "BROEN" "BROEN" [some rawTI46] 0
    rfl (by decide) (by decide)

/-- A payload falsifying C2's id-uniqueness: no inline markers, one
structured tool message whose two citation objects carry the same
`docId`. -/
def cex2 : AskResponse :=
  { answer := .str "dup", citations := some [],
    choices := some [
      { messages := some [
          { role := some "tool",
            content := some (.parsedStr { citations := some [
              some { docId := some "A" }, some { docId := some "A" } ] }) }] }] }

/-- The result `parseAnswer` produces on `cex2`. -/
def cex2result : ParsedAnswer :=
  { citations := [
      { id := "A", content := some "", title := none, filepath := none,
        url := none, metadata := none, chunk_id := none,
        reindex_id := some "1", part_index := some 1 },
      { id := "A", content := some "", title := none, filepath := none,
        url := none, metadata := none, chunk_id := none,
        reindex_id := some "2", part_index := some 2 }]
    markdownFormatText := "dup"
    generated_chart := .undef }

/-- Counterexample to C2: `cex2` resolves successfully, yet the final
citation list has `id` values `["A", "A"]` — not pairwise distinct. -/
theorem claim2_counterexample_duplicate_fallback_ids :
    parseAnswerStructured cex2 = .ret (some cex2result) ∧
    cex2result.citations.map (fun c => c.id) = ["A", "A"] ∧
    ¬ (cex2result.citations.map (fun c => c.id)).Nodup := by
  decide

/-- C2 (amended): in every successfully resolved answer the
`reindex_id` values are exactly the contiguous sequence "1".."k" (k the
list length) in list order; in the inline-only case (inline pass
nonempty) the `id` values are additionally pairwise distinct and equal
the distinct resolving marker index strings in first-seen order — so k is
the number of distinct such strings.  (The amendment: fallback-derived
`id` values need not be distinct, since the extractors copy backend ids
verbatim without de-duplication — see the counterexample.) -/
theorem claim2_amended_output_invariant :
    (∀ (extract : AskResponse → List Citation) (p : AskResponse) (s : String)
      (r : ParsedAnswer), p.answer = .str s →
      parseAnswerCore extract p = .ret (some r) →
      r.citations.map (fun c => c.reindex_id) =
        (List.range r.citations.length).map (fun i => some (toString (i + 1)))) ∧
    (∀ (extract : AskResponse → List Citation) (p : AskResponse) (s t : String)
      (pool : List (Option RawCitation)) (r : ParsedAnswer)
      (cits : List Citation) (k : Nat),
      p.answer = .str s → p.citations = some pool →
      inlineFold p.citations (scanMarkers s) s [] 0 = .ret (t, cits, k) →
      cits ≠ [] →
      parseAnswerCore extract p = .ret (some r) →
      (r.citations.map (fun c => c.id)).Nodup ∧
      r.citations.map (fun c => c.id) =
        addNew [] (((scanMarkers s).filter (resolvesB pool)).map idxStrOf) ∧
      (∀ x, x ∈ addNew [] (((scanMarkers s).filter (resolvesB pool)).map idxStrOf) ↔
        x ∈ ((scanMarkers s).filter (resolvesB pool)).map idxStrOf)) := by
  constructor
  · intro extract p s r hs hret
    cases hfold : inlineFold p.citations (scanMarkers s) s [] 0 with
    | thrown =>
      rw [parseAnswerCore_thrown extract p s hs hfold] at hret
      simp at hret
    | ret v =>
      obtain ⟨t, acc, k⟩ := v
      by_cases hacc : acc.length = 0
      · have hacc' : acc = [] := List.eq_nil_of_length_eq_zero hacc
        subst hacc'
        obtain ⟨r', hret', hlen', hreindex', -⟩ :=
          fallback_count_reindex extract p s t k (extract p).length hs hfold rfl
        have hrr : r = r' := by
          rw [hret] at hret'
          simpa using hret'
        subst hrr
        rw [← hlen'] at hreindex'
        exact hreindex'
      · rw [parseAnswerCore_eq extract p s hs t acc k hfold] at hret
        simp only [JsOutcome.ret.injEq, Option.some.injEq] at hret
        subst hret
        simp only [if_neg hacc]
        cases hp : p.citations with
        | none =>
          rw [hp] at hfold
          cases hsm : scanMarkers s with
          | nil =>
            rw [hsm] at hfold
            simp only [inlineFold, JsOutcome.ret.injEq, Prod.mk.injEq] at hfold
            exact absurd (hfold.2.1.symm ▸ rfl) hacc
          | cons a b =>
            rw [hsm] at hfold
            simp [inlineFold] at hfold
        | some pool =>
          rw [hp] at hfold
          obtain ⟨hk, hmap⟩ :=
            inlineFold_reindex (scanMarkers s) pool s [] 0 t acc k hfold rfl
              (by simp)
          show (enumGo [] acc).map (fun c => c.reindex_id) =
            (List.range (enumGo [] acc).length).map (fun i => some (toString (i + 1)))
          rw [enumGo_map_reindex, enumGo_length, hmap, hk]
  · intro extract p s t pool r cits k hs hpool hfold hne hret
    have hlen : ¬ (cits.length = 0) := fun h0 => hne (List.eq_nil_of_length_eq_zero h0)
    rw [parseAnswerCore_eq extract p s hs t cits k hfold] at hret
    simp only [JsOutcome.ret.injEq, Option.some.injEq] at hret
    subst hret
    simp only [if_neg hlen]
    have hfold' : inlineFold (some pool) (scanMarkers s) s [] 0 = .ret (t, cits, k) := by
      rw [← hpool]; exact hfold
    have hids := inlineFold_ids (scanMarkers s) pool s [] 0 t cits k hfold'
    simp only [List.map_nil] at hids
    have hmapid : (enumerateCitations cits).map (fun c => c.id) =
        addNew [] (((scanMarkers s).filter (resolvesB pool)).map idxStrOf) := by
      show (enumGo [] cits).map (fun c => c.id) = _
      rw [enumGo_map_id]; exact hids
    refine ⟨?_, hmapid, ?_⟩
    · rw [hmapid]
      exact addNew_nodup _ [] List.nodup_nil
    · intro x
      rw [addNew_mem]
      simp

/-- The accumulator the inline pass produces on the two-marker payload. -/
def cits6 : List Citation :=
  [{ id := "1", content := none, title := none, filepath := some "f1.pdf",
     url := none, metadata := none, chunk_id := none,
     reindex_id := some "1", part_index := none },
   { id := "2", content := none, title := none, filepath := some "f1.pdf",
     url := none, metadata := none, chunk_id := none,
     reindex_id := some "2", part_index := none }]

/-- Witness for C2: contiguous re-indexing on the fallback scenario and
the inline-only id discipline on the two-marker scenario. -/
theorem claim2_witness :
    (cex2result.citations.map (fun c => c.reindex_id) =
      (List.range cex2result.citations.length).map (fun i => some (toString (i + 1)))) ∧
    ((expected6.citations.map (fun c => c.id)).Nodup ∧
      expected6.citations.map (fun c => c.id) =
        addNew [] (((scanMarkers "See [doc1] and [doc2].").filter (resolvesB pool6)).map idxStrOf) ∧
      (∀ x, x ∈ addNew []
          (((scanMarkers "See [doc1] and [doc2].").filter (resolvesB pool6)).map idxStrOf) ↔
        x ∈ ((scanMarkers "See [doc1] and [doc2].").filter (resolvesB pool6)).map idxStrOf)) :=
  ⟨claim2_amended_output_invariant.1 extractPromptFlowCitationsStructured cex2
      "dup" cex2result rfl (by decide),
    claim2_amended_output_invariant.2 extractPromptFlowCitationsFlat pay6
      "See [doc1] and [doc2]." "See  ^1^  and  ^2^ ." pool6 expected6 cits6 2
      rfl rfl (by decide) (by decide) (by decide)⟩

/-- Counterexample to C8: a citation carrying both a page number and an
explicit metadata string.  Both normalizers synthesize `{"page":2}` —
the explicit metadata `"M"` is **not** passed through, contradicting the
claim's "only when ... no explicit metadata string exists". -/
theorem claim8_counterexample_page_overrides_metadata :
    (normStruct 0 (some { page := some 2, metadata := some "M" })).metadata =
      some "\x7b\"page\":2\x7d" ∧
    (normFlat 0 { docID := some "X", page := some 2, metadata := some "M" }).metadata =
      some "\x7b\"page\":2\x7d" ∧
    (some "\x7b\"page\":2\x7d" : Option String) ≠ some "M" := by
  decide

/-- The result the structured `TI46` scenario resolves to. -/
def expS : ParsedAnswer :=
  { citations := [
      { id := "TI46", content := some "", title := none,
        filepath := some "doc.pdf", url := none,
        metadata := some "\x7b\"page\":1\x7d", chunk_id := none,
        reindex_id := some "1", part_index := some 1 }]
    markdownFormatText := "BROEN"
    generated_chart := .null }

/-- C8 (amended): both citation normalizers synthesize `metadata` as the
JSON string `{"page":N}` whenever a page number is present — even when an
explicit metadata string exists, which is then discarded; with no page
number the explicit metadata passes through unchanged, and with neither
the metadata is `null`.  The scenario citation
`{docId:"TI46", page:1, source:"doc.pdf"}` yields metadata `'{"page":1}'`,
id `"TI46"`, filepath `"doc.pdf"`, reindex `"1"`. -/
theorem claim8_amended_metadata_rule :
    (∀ (i : Nat) (r : RawCitation) (n : Nat), r.page = some n →
      (normStruct i (some r)).metadata = some (pageJson n) ∧
      (normFlat i r).metadata = some (pageJson n)) ∧
    (∀ (i : Nat) (r : RawCitation), r.page = none →
      (normStruct i (some r)).metadata = r.metadata ∧
      (normFlat i r).metadata = r.metadata) ∧
    (∀ (i : Nat) (r : RawCitation), r.page = none → r.metadata = none →
      (normStruct i (some r)).metadata = none ∧
      (normFlat i r).metadata = none) ∧
    parseAnswerStructured payS = .ret (some expS) := by
  refine ⟨?_, ?_, ?_, by decide⟩
  · intro i r n hpage
    constructor
    · simp [normStruct, hpage]
    · simp [normFlat, hpage]
  · intro i r hpage
    constructor
    · simp [normStruct, hpage]
    · simp [normFlat, hpage]
  · intro i r hpage hmeta
    constructor
    · simp [normStruct, hpage, hmeta]
    · simp [normFlat, hpage, hmeta]

/-- Witness for C8 at the scenario citation: page 1 and no explicit
metadata synthesize `{"page":1}` in both normalizers. -/
theorem claim8_witness :
    (normStruct 0 (some rawTI46)).metadata = some (pageJson 1) ∧
    (normFlat 0 rawTI46).metadata = some (pageJson 1) :=
  claim8_amended_metadata_rule.1 0 rawTI46 1 rfl

end AnswerParser
